import Mathlib

/-!
# Cloud Quest Dungeon Generator — verification of the generation-with-fallback core

Shallow embedding of `src/backend/main.py` (FastAPI service).  Conventions:

* Python `str` is modelled as `List Char`; Python `int` as `Int`;
  Python `float` as an exact rational `ℚ` (the usual idealisation of the
  IEEE double; all float expressions in the source are plain `+`/`*`
  chains, so the algebraic identities proved here are the ones the spec
  states).
* `random.choice` / `random.randint` are modelled by an oracle stream
  `rng : Nat → Nat` consumed at fixed positions; quantifying over `rng`
  quantifies over every possible outcome of the randomness.
* The remote Vertex AI model is an oracle `model : List Char → Except Unit (List Char)`
  mapping the rendered prompt to either a response text (`.ok`) or a
  raised exception (`.error`), covering "call failed" of any kind.
* `json.loads` is embedded as a fuel-based recursive-descent JSON parser
  (strict mode: objects/arrays/strings with escapes/numbers/true/false/null,
  rejecting control characters inside strings and leading zeros, skipping
  the four JSON whitespace characters; the non-standard NaN/Infinity
  extensions of Python are not modelled).
-/

set_option maxHeartbeats 1000000

namespace CloudQuest

/-- Python strings are lists of characters. -/
abbrev Str := List Char

/-- The backtick character (code-fence marker character). -/
def fenceChar : Char := Char.ofNat 0x60

/-- Opening curly brace character. -/
def lbraceC : Char := Char.ofNat 0x7b

/-- Closing curly brace character. -/
def rbraceC : Char := Char.ofNat 0x7d

/-- JSON whitespace (the four characters `json.loads` skips between tokens). -/
def isJsonWs (c : Char) : Bool :=
  c = ' ' || c = '\t' || c = '\n' || c = '\r'

/-- Python `str.strip()` whitespace (ASCII part; `\x0b` and `\x0c` included). -/
def isPyWs (c : Char) : Bool :=
  c = ' ' || c = '\t' || c = '\n' || c = '\r' || c = Char.ofNat 0x0b || c = Char.ofNat 0x0c

/-- Drop the given predicate's characters from the right end. -/
def dropWhileRight (p : Char → Bool) (s : Str) : Str :=
  (s.reverse.dropWhile p).reverse

/-- Python `str.strip()`: whitespace removed from both ends. -/
def pyStrip (s : Str) : Str :=
  dropWhileRight isPyWs (s.dropWhile isPyWs)

/-- Python `str.strip(c)` for a single character `c`: that character removed
from both ends. -/
def pyStripChar (c : Char) (s : Str) : Str :=
  dropWhileRight (· = c) (s.dropWhile (· = c))

/-- Python `text.split("\n", 1)[1]`: everything after the first newline
(defined when a newline is present, which the source guards with
`"\n" in text`). -/
def afterFirstNl (s : Str) : Str :=
  (s.dropWhile (· ≠ '\n')).tail

/-- Skip JSON whitespace. -/
def skipWs (s : Str) : Str := s.dropWhile isJsonWs

/-- JSON values as produced by `json.loads`; Python keeps `int` and `float`
apart, which matters for the `int()` / `float()` coercions downstream. -/
inductive Json where
  | null : Json
  | bool (b : Bool) : Json
  | intNum (n : Int) : Json
  | floatNum (q : ℚ) : Json
  | str (s : Str) : Json
  | arr (xs : List Json) : Json
  | obj (kvs : List (Str × Json)) : Json

/-- Single-character JSON string escapes (`\u` handled separately). -/
def unescape (c : Char) : Option Char :=
  if c = '"' then some '"'
  else if c = '\\' then some '\\'
  else if c = '/' then some '/'
  else if c = 'b' then some (Char.ofNat 0x08)
  else if c = 'f' then some (Char.ofNat 0x0c)
  else if c = 'n' then some '\n'
  else if c = 'r' then some '\r'
  else if c = 't' then some '\t'
  else none

/-- Value of a hexadecimal digit. -/
def hexDigit (c : Char) : Option Nat :=
  if c.isDigit then some (c.toNat - '0'.toNat)
  else if 'a' ≤ c ∧ c ≤ 'f' then some (c.toNat - 'a'.toNat + 10)
  else if 'A' ≤ c ∧ c ≤ 'F' then some (c.toNat - 'A'.toNat + 10)
  else none

/-- Four hex digits to a code point. -/
def hex4 (a b c d : Char) : Option Nat := do
  let x ← hexDigit a
  let y ← hexDigit b
  let z ← hexDigit c
  let w ← hexDigit d
  some (((x * 16 + y) * 16 + z) * 16 + w)

/-- Scan the body of a JSON string after its opening quote, returning the
decoded content and the remainder after the closing quote.  Strict mode:
raw control characters are rejected. -/
def scanStr : Str → Option (Str × Str)
  | [] => none
  | c :: cs =>
      if c = '"' then some ([], cs)
      else if c = '\\' then
        match cs with
        | [] => none
        | e :: cs' =>
            if e = 'u' then
              match cs' with
              | a :: b :: c2 :: d :: cs'' =>
                  match hex4 a b c2 d with
                  | none => none
                  | some code =>
                      match scanStr cs'' with
                      | none => none
                      | some (out, r) => some (Char.ofNat code :: out, r)
              | _ => none
            else
              match unescape e with
              | none => none
              | some ch =>
                  match scanStr cs' with
                  | none => none
                  | some (out, r) => some (ch :: out, r)
      else if c.toNat < 0x20 then none
      else
        match scanStr cs with
        | none => none
        | some (out, r) => some (c :: out, r)

/-- Numeric value of a digit string (most significant first). -/
def natOfDigits (ds : Str) : Nat :=
  ds.foldl (fun acc c => acc * 10 + (c.toNat - '0'.toNat)) 0

/-- JSON integer part: `0` alone or a nonzero digit followed by digits
(leading zeros rejected, as in strict JSON). -/
def parseIntPart : Str → Option (Str × Str)
  | [] => none
  | c :: cs =>
      if c = '0' then some (['0'], cs)
      else if c.isDigit then
        some (c :: cs.takeWhile Char.isDigit, cs.dropWhile Char.isDigit)
      else none

/-- JSON fractional part: optional; `.` must be followed by at least one
digit.  Returns the fraction digits (empty when absent) and a flag. -/
def parseFracPart : Str → Option (Str × Bool × Str)
  | [] => some ([], false, [])
  | c :: cs =>
      if c = '.' then
        if cs.takeWhile Char.isDigit = [] then none
        else some (cs.takeWhile Char.isDigit, true, cs.dropWhile Char.isDigit)
      else some ([], false, c :: cs)

/-- Exponent digits: at least one digit, yielding the signed exponent. -/
def expDigits (sg : Int) (u : Str) : Option (Int × Bool × Str) :=
  if u.takeWhile Char.isDigit = [] then none
  else some (sg * (natOfDigits (u.takeWhile Char.isDigit) : Int), true,
    u.dropWhile Char.isDigit)

/-- The part after `e`/`E`: optional sign, then digits. -/
def parseExpSign : Str → Option (Int × Bool × Str)
  | [] => none
  | c' :: cs' =>
      if c' = '+' then expDigits 1 cs'
      else if c' = '-' then expDigits (-1) cs'
      else expDigits 1 (c' :: cs')

/-- JSON exponent part: optional; `e`/`E`, optional sign, at least one
digit.  Returns the signed exponent (0 when absent) and a flag. -/
def parseExpPart : Str → Option (Int × Bool × Str)
  | [] => some (0, false, [])
  | c :: cs =>
      if c = 'e' ∨ c = 'E' then parseExpSign cs
      else some (0, false, c :: cs)

/-- The digits of a number after its optional sign: integer part, optional
fraction, optional exponent, assembled into an `int` or `float`. -/
def parseNumBody (sgn : Int) (s1 : Str) : Option (Json × Str) :=
  match parseIntPart s1 with
  | none => none
  | some (ip, s2) =>
    match parseFracPart s2 with
    | none => none
    | some (fr, hadF, s3) =>
      match parseExpPart s3 with
      | none => none
      | some (ex, hadE, s4) =>
        if hadF || hadE then
          let m : Int := sgn * (natOfDigits (ip ++ fr) : Int)
          some (.floatNum ((m : ℚ) * (10 : ℚ) ^ (ex - (fr.length : Int))), s4)
        else
          some (.intNum (sgn * (natOfDigits ip : Int)), s4)

/-- A JSON number: optional `-`, integer part, optional fraction, optional
exponent.  `int` when neither fraction nor exponent is present, else
`float` (so `1` is an `int` but `1.0` and `1e0` are `float`s, as in
Python's `json`). -/
def parseNumber (s : Str) : Option (Json × Str) :=
  match s with
  | [] => none
  | c :: cs =>
      if c = '-' then parseNumBody (-1) cs
      else parseNumBody 1 (c :: cs)

/-- Insert a key/value into an association list, Python-`dict` style: an
existing key keeps its position but takes the new value; a new key is
appended. -/
def setKV (k : Str) (v : Json) : List (Str × Json) → List (Str × Json)
  | [] => [(k, v)]
  | (k', v') :: rest =>
      if k' = k then (k', v) :: rest else (k', v') :: setKV k v rest

/-- Deduplicate object members the way `dict` building does (later value
wins, first position kept). -/
def dedupKV (l : List (Str × Json)) : List (Str × Json) :=
  l.foldl (fun acc kv => setKV kv.1 kv.2 acc) []

mutual

/-- Parse one JSON value (fuel-based recursion; `json_loads` supplies
ample fuel). -/
def parseVal : Nat → Str → Option (Json × Str)
  | 0, _ => none
  | fuel + 1, s =>
    match s with
    | [] => none
    | c :: cs =>
      if c = lbraceC then
        match skipWs cs with
        | c' :: cs' =>
            if c' = rbraceC then some (.obj [], cs')
            else
              match parseObjItems fuel (c' :: cs') with
              | some (kvs, r) => some (.obj (dedupKV kvs), r)
              | none => none
        | [] => none
      else if c = '[' then
        match skipWs cs with
        | [] => none
        | c' :: cs' =>
            if c' = ']' then some (.arr [], cs')
            else
              match parseArrItems fuel (c' :: cs') with
              | some (xs, r) => some (.arr xs, r)
              | none => none
      else if c = '"' then
        match scanStr cs with
        | some (str, r) => some (.str str, r)
        | none => none
      else if c = 't' then
        match cs with
        | 'r' :: 'u' :: 'e' :: r => some (.bool true, r)
        | _ => none
      else if c = 'f' then
        match cs with
        | 'a' :: 'l' :: 's' :: 'e' :: r => some (.bool false, r)
        | _ => none
      else if c = 'n' then
        match cs with
        | 'u' :: 'l' :: 'l' :: r => some (.null, r)
        | _ => none
      else parseNumber (c :: cs)

/-- Parse the comma-separated items of a non-empty JSON array, up to and
including the closing bracket. -/
def parseArrItems : Nat → Str → Option (List Json × Str)
  | 0, _ => none
  | fuel + 1, s =>
    match parseVal fuel (skipWs s) with
    | none => none
    | some (v, r) =>
      match skipWs r with
      | [] => none
      | c :: r2 =>
          if c = ',' then
            match parseArrItems fuel r2 with
            | some (vs, r3) => some (v :: vs, r3)
            | none => none
          else if c = ']' then some ([v], r2)
          else none

/-- Parse the comma-separated members of a non-empty JSON object, up to
and including the closing brace. -/
def parseObjItems : Nat → Str → Option (List (Str × Json) × Str)
  | 0, _ => none
  | fuel + 1, s =>
    match skipWs s with
    | [] => none
    | c :: cs =>
      if c = '"' then
        match scanStr cs with
        | none => none
        | some (k, r) =>
          match skipWs r with
          | [] => none
          | c2 :: r2 =>
            if c2 = ':' then
              match parseVal fuel (skipWs r2) with
              | none => none
              | some (v, r3) =>
                match skipWs r3 with
                | [] => none
                | c3 :: r4 =>
                    if c3 = ',' then
                      match parseObjItems fuel r4 with
                      | some (kvs, r5) => some ((k, v) :: kvs, r5)
                      | none => none
                    else if c3 = rbraceC then some ([(k, v)], r4)
                    else none
            else none
      else none

end

/-- `json.loads`: skip leading whitespace, parse one value, require only
whitespace after it. -/
def json_loads (s : Str) : Option Json :=
  match parseVal (s.length + 1) (skipWs s) with
  | some (v, r) => if r.all isJsonWs then some v else none
  | none => none

/-- First-match association-list lookup (object keys are unique after
`dedupKV`, so this is `dict` access). -/
def lookupKV (kvs : List (Str × Json)) (k : Str) : Option Json :=
  match kvs with
  | [] => none
  | (k', v) :: rest => if k' = k then some v else lookupKV rest k

/-- Python `d.get(k, default)`. -/
def getKV (kvs : List (Str × Json)) (k : Str) (d : Json) : Json :=
  (lookupKV kvs k).getD d

/-- Truncation toward zero, the behaviour of Python `int()` on a float. -/
def ratTrunc (q : ℚ) : Int :=
  if q < 0 then -(Int.floor (-q)) else Int.floor q

/-- Python `int(s)` on a string: strip whitespace, optional sign, at least
one digit. -/
def pyIntOfStr (s : Str) : Option Int :=
  match pyStrip s with
  | '-' :: ds => if ds ≠ [] ∧ ds.all Char.isDigit then some (-(natOfDigits ds : Int)) else none
  | '+' :: ds => if ds ≠ [] ∧ ds.all Char.isDigit then some (natOfDigits ds : Int) else none
  | ds => if ds ≠ [] ∧ ds.all Char.isDigit then some (natOfDigits ds : Int) else none

/-- Python `int(x)` on a JSON-decoded value: ints pass through, floats
truncate toward zero, numeric strings parse, bools become 0/1, anything
else raises (`none`). -/
def pyInt : Json → Option Int
  | .intNum n => some n
  | .floatNum q => some (ratTrunc q)
  | .str s => pyIntOfStr s
  | .bool b => some (if b then 1 else 0)
  | _ => none

/-- Python `float(s)` on a string: strip whitespace, optional sign, digits
with optional fraction, optional exponent (`inf`/`nan` not modelled). -/
def pyFloatOfStr (s : Str) : Option ℚ :=
  let t := pyStrip s
  let (sgn, t1) : ℚ × Str :=
    match t with
    | '-' :: cs => (-1, cs)
    | '+' :: cs => (1, cs)
    | _ => (1, t)
  let ip := t1.takeWhile Char.isDigit
  let t2 := t1.dropWhile Char.isDigit
  let (fr, t3) : Str × Str :=
    match t2 with
    | '.' :: cs => (cs.takeWhile Char.isDigit, cs.dropWhile Char.isDigit)
    | _ => ([], t2)
  if ip = [] ∧ fr = [] then none
  else
    let mant : ℚ := sgn * ((natOfDigits (ip ++ fr) : ℚ) / (10 : ℚ) ^ fr.length)
    match t3 with
    | [] => some mant
    | c :: cs =>
        if c = 'e' ∨ c = 'E' then
          let (esgn, cs') : Int × Str :=
            match cs with
            | '-' :: cs'' => (-1, cs'')
            | '+' :: cs'' => (1, cs'')
            | _ => (1, cs)
          match cs'.takeWhile Char.isDigit with
          | [] => none
          | ds =>
              if cs'.dropWhile Char.isDigit = [] then
                some (mant * (10 : ℚ) ^ (esgn * (natOfDigits ds : Int)))
              else none
        else none

/-- Python `float(x)` on a JSON-decoded value. -/
def pyFloat : Json → Option ℚ
  | .intNum n => some (n : ℚ)
  | .floatNum q => some q
  | .str s => pyFloatOfStr s
  | .bool b => some (if b then 1 else 0)
  | _ => none

/-- A value must already be a Python `str` (what a `str`-typed pydantic
field accepts). -/
def asStr : Json → Option Str
  | .str s => some s
  | _ => none

/-- Python `list(x)` followed by pydantic `List[str]` validation: an array
of strings passes through, a string becomes its characters, a dict
becomes its keys, anything else raises. -/
def pyListStr : Json → Option (List Str)
  | .arr xs => xs.mapM asStr
  | .str cs => some (cs.map fun c => [c])
  | .obj kvs => some (kvs.map (·.1))
  | _ => none

/-- Python iteration `for e in x`: arrays yield elements, strings yield
one-character strings, dicts yield keys; other values are not iterable. -/
def iterElems : Json → Option (List Json)
  | .arr xs => some xs
  | .str cs => some (cs.map fun c => Json.str [c])
  | .obj kvs => some (kvs.map fun kv => Json.str kv.1)
  | _ => none

/-! ## Data model (`DungeonRequest`, `Enemy`, `DungeonRoom`) -/

/-- `DungeonRequest`: note that the pydantic model puts no bound on
`player_level` or `skill_score`; validity (`player_level ≥ 0`,
`skill_score ∈ [0,1]`) is a spec-level precondition only. -/
structure DungeonRequest where
  player_level : Int
  skill_score : ℚ
  dungeon_type : Str
  deriving DecidableEq

structure Enemy where
  name : Str
  health : Int
  attack : Int
  defense : Int
  behavior : Str
  loot_drop : List Str
  deriving DecidableEq

structure DungeonRoom where
  layout : Str
  enemies : List Enemy
  loot_chests : Int
  difficulty_modifier : ℚ
  description : Str
  deriving DecidableEq

/-! ## Procedural fallback generator -/

/-- `random.choice` outcome selected by one oracle value (uniformity is
irrelevant: theorems quantify over the oracle). -/
def pyChoice (l : List Str) (n : Nat) : Str :=
  l.getD (n % l.length) []

/-- `random.randint(a, b)` outcome selected by one oracle value; always
lands in `[a, b]` when `a ≤ b`. -/
def pyRandint (a b : Int) (n : Nat) : Int :=
  a + (n % (b - a + 1).toNat : Nat)

def enemyTypes : List Str :=
  ["Goblin".toList, "Skeleton".toList, "Orc".toList, "Wraith".toList, "Dragon".toList]

def behaviorChoices : List Str :=
  ["aggressive".toList, "defensive".toList, "ranged".toList, "stealth".toList]

def layoutChoices : List Str :=
  ["corridor".toList, "arena".toList, "maze".toList, "treasure_room".toList, "boss_chamber".toList]

def adjectiveChoices : List Str :=
  ["dark".toList, "ancient".toList, "cursed".toList]

/-- The fixed fallback loot table. -/
def fixedLoot : List Str :=
  ["health_potion".toList, "gold".toList, "weapon_shard".toList]

/-- Decimal rendering of an `Int` (Python `str(n)` / f-string interpolation). -/
def intRepr (n : Int) : Str :=
  if n < 0 then '-' :: Nat.toDigits 10 (-n).toNat else Nat.toDigits 10 n.toNat

/-- One loop iteration of the fallback generator: enemy `i` consumes oracle
positions `5*i .. 5*i+4` in source evaluation order (name choice, health,
attack, defense jitters, behavior choice). -/
def mkProcEnemy (req : DungeonRequest) (rng : Nat → Nat) (i : Nat) : Enemy :=
  { name := pyChoice enemyTypes (rng (5 * i)) ++ " Lv.".toList ++ intRepr req.player_level
    health := 50 + req.player_level * 10 + pyRandint (-10) 10 (rng (5 * i + 1))
    attack := 10 + req.player_level * 2 + pyRandint (-3) 3 (rng (5 * i + 2))
    defense := 5 + req.player_level + pyRandint (-2) 2 (rng (5 * i + 3))
    behavior := pyChoice behaviorChoices (rng (5 * i + 4))
    loot_drop := fixedLoot }

/-- `generate_procedural_dungeon` from `src/backend/main.py`:
`num_enemies = min(4, 1 + player_level // 3)` (Python floor division =
`Int.fdiv`; `range` of a negative count is empty, hence `.toNat`), then
the room fields, consuming the oracle left to right. -/
def generate_procedural_dungeon (req : DungeonRequest) (rng : Nat → Nat) : DungeonRoom :=
  let num_enemies : Int := min 4 (1 + req.player_level.fdiv 3)
  let n : Nat := num_enemies.toNat
  let enemies : List Enemy := (List.range n).map (mkProcEnemy req rng)
  let difficulty : ℚ := (req.player_level : ℚ) * (1 / 10) + req.skill_score * (1 / 2)
  { layout := pyChoice layoutChoices (rng (5 * n))
    enemies := enemies
    loot_chests := pyRandint 1 3 (rng (5 * n + 1))
    difficulty_modifier := difficulty
    description :=
      "A mysterious ".toList ++ pyChoice adjectiveChoices (rng (5 * n + 2)) ++ " chamber.".toList }

/-! ## AI-assisted generator -/

/-- `base_difficulty = request.player_level * 0.1`. -/
def base_difficulty (req : DungeonRequest) : ℚ :=
  (req.player_level : ℚ) * (1 / 10)

/-- `adaptive_difficulty = base_difficulty + (request.skill_score * 0.5)`. -/
def adaptive_difficulty (req : DungeonRequest) : ℚ :=
  base_difficulty req + req.skill_score * (1 / 2)

/-- Round half-to-even (what correctly-rounded float formatting does on the
idealised rational). -/
def roundHalfEven (q : ℚ) : Int :=
  let f := Int.floor q
  let r := q - (f : ℚ)
  if r < 1 / 2 then f
  else if (1 : ℚ) / 2 < r then f + 1
  else if f % 2 = 0 then f else f + 1

/-- Python `"\x7b:.2f\x7d".format` on the idealised float. -/
def format2f (q : ℚ) : Str :=
  let n := roundHalfEven (q * 100)
  let a := n.natAbs
  let fp := Nat.toDigits 10 (a % 100)
  (if n < 0 then ['-'] else []) ++ Nat.toDigits 10 (a / 100) ++
    ['.'] ++ (if a % 100 < 10 then '0' :: fp else fp)

/-- The prompt f-string rendered by `generate_dungeon_with_ai` (the literal
braces of the embedded JSON schema example are `\x7b`/`\x7d`). -/
def buildPrompt (req : DungeonRequest) : Str :=
  "Generate a unique dungeon room for an action RPG mobile game.\n\nPlayer Level: ".toList ++
  intRepr req.player_level ++
  "\nDifficulty: ".toList ++ format2f (adaptive_difficulty req) ++
  "\nDungeon Type: ".toList ++ req.dungeon_type ++
  "\n\nGenerate 2-4 enemies with:\n- Creative fantasy names\n- Health: ".toList ++
  intRepr (50 + req.player_level * 10) ++ " to ".toList ++ intRepr (100 + req.player_level * 20) ++
  "\n- Attack: ".toList ++
  intRepr (10 + req.player_level * 2) ++ " to ".toList ++ intRepr (20 + req.player_level * 4) ++
  "\n- Defense: ".toList ++
  intRepr (5 + req.player_level) ++ " to ".toList ++ intRepr (10 + req.player_level * 2) ++
  "\n- Behavior pattern (aggressive, defensive, ranged, or stealth)\n- Loot drops (health potions, weapons, armor, gold)\n\nRoom Layout: one of (corridor, arena, maze, treasure_room, boss_chamber)\nDescription: 1-2 sentence atmospheric description\n\nReturn strict JSON with this exact shape:\n\n\x7b\n  \"layout\": \"corridor|arena|maze|treasure_room|boss_chamber\",\n  \"enemies\": [\n    \x7b\n      \"name\": \"string\",\n      \"health\": 0,\n      \"attack\": 0,\n      \"defense\": 0,\n      \"behavior\": \"aggressive|defensive|ranged|stealth\",\n      \"loot_drop\": [\"string\", \"string\"]\n    \x7d\n  ],\n  \"loot_chests\": 0,\n  \"difficulty_modifier\": ".toList ++
  format2f (adaptive_difficulty req) ++
  ",\n  \"description\": \"string\"\n\x7d\n".toList

/-- The default description used when the model omits one. -/
def aiDefaultDescription : Str :=
  "A dynamically generated dungeon chamber powered by Gemini 2.5 Flash.".toList

/-- The fence-stripping step of the source:
`text = response.text.strip()`, then if it starts with three backticks,
strip backticks from both ends and drop the first line when a newline
remains. -/
def stripFences (raw : Str) : Str :=
  let text := pyStrip raw
  if text.take 3 = [fenceChar, fenceChar, fenceChar] then
    let t := pyStripChar fenceChar text
    if t.contains '\n' then afterFirstNl t else t
  else text

/-- Build one `Enemy` from a JSON element, exactly the coercions of the
list comprehension: subscripting needs a dict and present keys,
`int()` on health/attack/defense, `e.get("behavior", "aggressive")` and
`list(e.get("loot_drop", []))` with pydantic `str` / `List[str]`
validation. -/
def buildEnemy : Json → Option Enemy
  | .obj kvs => do
      let nm ← asStr (← lookupKV kvs "name".toList)
      let h ← pyInt (← lookupKV kvs "health".toList)
      let a ← pyInt (← lookupKV kvs "attack".toList)
      let d ← pyInt (← lookupKV kvs "defense".toList)
      let b ← asStr (getKV kvs "behavior".toList (.str "aggressive".toList))
      let l ← pyListStr (getKV kvs "loot_drop".toList (.arr []))
      some ⟨nm, h, a, d, b, l⟩
  | _ => none

/-- The whole enemy list comprehension over `data.get("enemies", [])`. -/
def buildEnemies (j : Json) : Option (List Enemy) := do
  (← iterElems j).mapM buildEnemy

/-- The body of the `try:` block after a model response `resp`
(`.error` = the remote call raised): fence stripping, `json.loads`,
enemy construction, the `if not enemies` check, and the final
`DungeonRoom(...)` with its `int()` / `float()` coercions and `.get`
defaults.  `none` means an exception was raised (or the explicit empty
check fired), which the source turns into the procedural fallback. -/
def aiAttempt : Except Unit Str → DungeonRequest → Option DungeonRoom
  | .error _, _ => none
  | .ok raw, req =>
    match json_loads (stripFences raw) with
    | none => none
    | some (.obj kvs) =>
      match buildEnemies (getKV kvs "enemies".toList (.arr [])) with
      | none => none
      | some [] => none
      | some es =>
        match asStr (getKV kvs "layout".toList (.str "corridor".toList)),
              pyInt (getKV kvs "loot_chests".toList (.intNum 1)),
              pyFloat (getKV kvs "difficulty_modifier".toList
                (.floatNum (adaptive_difficulty req))),
              asStr (getKV kvs "description".toList (.str aiDefaultDescription)) with
        | some lay, some lc, some dm, some de =>
            some ⟨lay, es, lc, dm, de⟩
        | _, _, _, _ => none
    | some _ => none

/-- `generate_dungeon_with_ai` from `src/backend/main.py`.  The prompt is
rendered first (as in the source), the availability flag short-circuits
to the fallback, otherwise the model oracle is consulted on the prompt
and any failure of the `try:` block falls back. -/
def generate_dungeon_with_ai (vertexEnabled : Bool)
    (model : Str → Except Unit Str) (req : DungeonRequest) (rng : Nat → Nat) : DungeonRoom :=
  let prompt := buildPrompt req
  if !vertexEnabled then generate_procedural_dungeon req rng
  else
    match aiAttempt (model prompt) req with
    | some room => room
    | none => generate_procedural_dungeon req rng

/-! ## List helper lemmas -/

theorem dropWhile_append_of_forall {p : Char → Bool} {l₁ : Str} (l₂ : Str)
    (h : ∀ c ∈ l₁, p c = true) :
    List.dropWhile p (l₁ ++ l₂) = List.dropWhile p l₂ := by
  induction l₁ with
  | nil => rfl
  | cons a l ih =>
      simp only [List.cons_append, List.dropWhile_cons, h a (by simp), if_true]
      exact ih fun c hc => h c (by simp [hc])

theorem dropWhile_append_of_stop {p : Char → Bool} {l₁ : Str} (l₂ : Str)
    (h : List.dropWhile p l₁ ≠ []) :
    List.dropWhile p (l₁ ++ l₂) = List.dropWhile p l₁ ++ l₂ := by
  induction l₁ with
  | nil => simp at h
  | cons a l ih =>
      by_cases hp : p a
      · simp only [List.cons_append, List.dropWhile_cons, hp, if_true] at h ⊢
        exact ih h
      · simp only [List.cons_append, List.dropWhile_cons, hp, if_false] at h ⊢
        simp [hp]

theorem takeWhile_append_stop {p : Char → Bool} {c : Char} (l t : Str)
    (hc : p c = false) :
    List.takeWhile p (l ++ c :: t) = List.takeWhile p l := by
  induction l with
  | nil => simp [List.takeWhile_cons, hc]
  | cons a l ih =>
      by_cases hp : p a <;> simp [List.takeWhile_cons, hp, ih]

theorem dropWhile_append_stop {p : Char → Bool} {c : Char} (l t : Str)
    (hc : p c = false) :
    List.dropWhile p (l ++ c :: t) = List.dropWhile p l ++ c :: t := by
  induction l with
  | nil => simp [List.dropWhile_cons, hc]
  | cons a l ih =>
      by_cases hp : p a <;> simp [List.dropWhile_cons, hp, ih]

theorem dropWhile_cons_self {p : Char → Bool} {c : Char} (l : Str)
    (hc : p c = false) :
    List.dropWhile p (c :: l) = c :: l := by
  simp [List.dropWhile_cons, hc]

theorem dropWhile_eq_self_of_all_neg {p : Char → Bool} {l : Str}
    (h : ∀ c ∈ l, p c = false) : List.dropWhile p l = l := by
  cases l with
  | nil => rfl
  | cons a t => simp [List.dropWhile_cons, h a (by simp)]

theorem dropWhile_eq_nil_of_all_pos {p : Char → Bool} {l : Str}
    (h : ∀ c ∈ l, p c = true) : List.dropWhile p l = [] := by
  induction l with
  | nil => rfl
  | cons a t ih =>
      simp only [List.dropWhile_cons, h a (by simp), if_true]
      exact ih fun c hc => h c (by simp [hc])

/-! ## Parser support lemmas (appending trailing whitespace) -/

theorem parseVal_nil (fuel : Nat) : parseVal fuel [] = none := by
  cases fuel <;> simp [parseVal]

theorem parseArrItems_nil (fuel : Nat) : parseArrItems fuel [] = none := by
  cases fuel with
  | zero => simp [parseArrItems]
  | succ f => simp [parseArrItems, skipWs, parseVal_nil]

theorem parseObjItems_nil (fuel : Nat) : parseObjItems fuel [] = none := by
  cases fuel with
  | zero => simp [parseObjItems]
  | succ f => simp [parseObjItems, skipWs]

theorem skipWs_append_cons {s : Str} {c : Char} {r : Str} (t : Str)
    (h : skipWs s = c :: r) : skipWs (s ++ t) = c :: (r ++ t) := by
  unfold skipWs at h ⊢
  rw [dropWhile_append_of_stop t (by rw [h]; exact List.cons_ne_nil c r), h]
  rfl

theorem scanStr_append (t : Str) :
    ∀ s o r, scanStr s = some (o, r) → scanStr (s ++ t) = some (o, r ++ t) := by
  intro s
  induction s using scanStr.induct
  case case1 =>
    intro o r h
    rw [scanStr.eq_def] at h
    simp at h
  all_goals
    intro o r h
    rw [scanStr.eq_def] at h
    rw [List.cons_append, scanStr.eq_def]
    simp_all [List.cons_append]


theorem takeWhile_digit_nl (l : Str) :
    (l ++ ['\n']).takeWhile Char.isDigit = l.takeWhile Char.isDigit :=
  takeWhile_append_stop l [] (by decide)

theorem dropWhile_digit_nl (l : Str) :
    (l ++ ['\n']).dropWhile Char.isDigit = l.dropWhile Char.isDigit ++ ['\n'] :=
  dropWhile_append_stop l [] (by decide)

theorem parseIntPart_append_nl {s ds r : Str}
    (h : parseIntPart s = some (ds, r)) :
    parseIntPart (s ++ ['\n']) = some (ds, r ++ ['\n']) := by
  cases s with
  | nil => simp [parseIntPart] at h
  | cons c cs =>
      rw [List.cons_append]
      simp only [parseIntPart] at h ⊢
      by_cases h0 : c = '0'
      · rw [if_pos h0] at h ⊢
        simp only [Option.some.injEq, Prod.mk.injEq] at h ⊢
        exact ⟨h.1, by rw [← h.2]⟩
      · rw [if_neg h0] at h ⊢
        by_cases hd : c.isDigit
        · rw [if_pos hd] at h ⊢
          rw [takeWhile_digit_nl, dropWhile_digit_nl]
          simp only [Option.some.injEq, Prod.mk.injEq] at h ⊢
          exact ⟨h.1, by rw [← h.2]⟩
        · rw [if_neg hd] at h
          exact Option.noConfusion h

theorem parseFracPart_append_nl {s fr : Str} {hf : Bool} {r : Str}
    (h : parseFracPart s = some (fr, hf, r)) :
    parseFracPart (s ++ ['\n']) = some (fr, hf, r ++ ['\n']) := by
  cases s with
  | nil =>
      simp only [parseFracPart, Option.some.injEq, Prod.mk.injEq] at h
      obtain ⟨h1, h2, h3⟩ := h
      subst h1; subst h2; subst h3
      rfl
  | cons c cs =>
      rw [List.cons_append]
      simp only [parseFracPart] at h ⊢
      by_cases hdot : c = '.'
      · rw [if_pos hdot] at h ⊢
        by_cases htw : cs.takeWhile Char.isDigit = []
        · rw [if_pos htw] at h
          exact Option.noConfusion h
        · rw [if_neg htw] at h
          rw [takeWhile_digit_nl, if_neg htw, dropWhile_digit_nl]
          simp only [Option.some.injEq, Prod.mk.injEq] at h ⊢
          exact ⟨h.1, h.2.1, by rw [← h.2.2]⟩
      · rw [if_neg hdot] at h ⊢
        simp only [Option.some.injEq, Prod.mk.injEq] at h ⊢
        exact ⟨h.1, h.2.1, by rw [← h.2.2, List.cons_append]⟩

theorem expDigits_append_nl {sg : Int} {u : Str} {x : Int} {y : Bool} {z : Str}
    (h : expDigits sg u = some (x, y, z)) :
    expDigits sg (u ++ ['\n']) = some (x, y, z ++ ['\n']) := by
  unfold expDigits at h ⊢
  by_cases htw : u.takeWhile Char.isDigit = []
  · rw [if_pos htw] at h
    exact Option.noConfusion h
  · rw [if_neg htw] at h
    rw [takeWhile_digit_nl, if_neg htw, dropWhile_digit_nl]
    simp only [Option.some.injEq, Prod.mk.injEq] at h ⊢
    exact ⟨h.1, h.2.1, by rw [← h.2.2]⟩

theorem parseExpSign_append_nl {s : Str} {ex : Int} {hadE : Bool} {r : Str}
    (h : parseExpSign s = some (ex, hadE, r)) :
    parseExpSign (s ++ ['\n']) = some (ex, hadE, r ++ ['\n']) := by
  cases s with
  | nil => simp [parseExpSign] at h
  | cons c' cs' =>
      rw [List.cons_append]
      simp only [parseExpSign] at h ⊢
      by_cases hp : c' = '+'
      · rw [if_pos hp] at h ⊢
        exact expDigits_append_nl h
      · rw [if_neg hp] at h ⊢
        by_cases hm : c' = '-'
        · rw [if_pos hm] at h ⊢
          exact expDigits_append_nl h
        · rw [if_neg hm] at h ⊢
          have hres := @expDigits_append_nl _ (c' :: cs') _ _ _ h
          rw [List.cons_append] at hres
          exact hres

theorem parseExpPart_append_nl {s : Str} {ex : Int} {hadE : Bool} {r : Str}
    (h : parseExpPart s = some (ex, hadE, r)) :
    parseExpPart (s ++ ['\n']) = some (ex, hadE, r ++ ['\n']) := by
  cases s with
  | nil =>
      simp only [parseExpPart, Option.some.injEq, Prod.mk.injEq] at h
      obtain ⟨h1, h2, h3⟩ := h
      subst h1; subst h2; subst h3
      rfl
  | cons c cs =>
      rw [List.cons_append]
      simp only [parseExpPart] at h ⊢
      by_cases hc : c = 'e' ∨ c = 'E'
      · rw [if_pos hc] at h ⊢
        exact parseExpSign_append_nl h
      · rw [if_neg hc] at h ⊢
        simp only [Option.some.injEq, Prod.mk.injEq] at h ⊢
        exact ⟨h.1, h.2.1, by rw [← h.2.2, List.cons_append]⟩

theorem parseNumBody_append_nl {sgn : Int} {s1 : Str} {v : Json} {r : Str}
    (h : parseNumBody sgn s1 = some (v, r)) :
    parseNumBody sgn (s1 ++ ['\n']) = some (v, r ++ ['\n']) := by
  cases hip : parseIntPart s1 with
  | none =>
      simp only [parseNumBody, hip] at h
      exact Option.noConfusion h
  | some p =>
      obtain ⟨ip, s2⟩ := p
      cases hfp : parseFracPart s2 with
      | none =>
          simp only [parseNumBody, hip, hfp] at h
          exact Option.noConfusion h
      | some q =>
          obtain ⟨fr, hadF, s3⟩ := q
          cases hep : parseExpPart s3 with
          | none =>
              simp only [parseNumBody, hip, hfp, hep] at h
              exact Option.noConfusion h
          | some w =>
              obtain ⟨ex, hadE, s4⟩ := w
              simp only [parseNumBody, hip, hfp, hep] at h
              simp only [parseNumBody, parseIntPart_append_nl hip,
                parseFracPart_append_nl hfp, parseExpPart_append_nl hep]
              by_cases hfe : (hadF || hadE) = true
              · rw [if_pos hfe] at h ⊢
                simp only [Option.some.injEq, Prod.mk.injEq] at h ⊢
                exact ⟨h.1, by rw [← h.2]⟩
              · rw [if_neg hfe] at h ⊢
                simp only [Option.some.injEq, Prod.mk.injEq] at h ⊢
                exact ⟨h.1, by rw [← h.2]⟩

theorem parseNumber_append_nl {s : Str} {v : Json} {r : Str}
    (h : parseNumber s = some (v, r)) :
    parseNumber (s ++ ['\n']) = some (v, r ++ ['\n']) := by
  cases s with
  | nil => simp [parseNumber] at h
  | cons c cs =>
      rw [List.cons_append]
      simp only [parseNumber] at h ⊢
      by_cases hm : c = '-'
      · rw [if_pos hm] at h ⊢
        exact parseNumBody_append_nl h
      · rw [if_neg hm] at h ⊢
        have hres := @parseNumBody_append_nl _ (c :: cs) _ _ h
        rw [List.cons_append] at hres
        exact hres

/-- Appending a trailing newline (and adding any extra fuel) preserves a
successful parse of each syntactic class. -/
theorem parse_append_all :
    ∀ fuel : Nat,
      (∀ k s v r, parseVal fuel s = some (v, r) →
          parseVal (fuel + k) (s ++ ['\n']) = some (v, r ++ ['\n']))
      ∧ (∀ k s vs r, parseArrItems fuel s = some (vs, r) →
          parseArrItems (fuel + k) (s ++ ['\n']) = some (vs, r ++ ['\n']))
      ∧ (∀ k s kvs r, parseObjItems fuel s = some (kvs, r) →
          parseObjItems (fuel + k) (s ++ ['\n']) = some (kvs, r ++ ['\n'])) := by
  intro fuel
  induction fuel with
  | zero =>
      refine ⟨?_, ?_, ?_⟩ <;> intro k s a b h <;>
        simp [parseVal, parseArrItems, parseObjItems] at h
  | succ f ih =>
      obtain ⟨ihV, ihA, ihO⟩ := ih
      have hfk : ∀ k : Nat, f + 1 + k = (f + k) + 1 := fun k => by omega
      refine ⟨?_, ?_, ?_⟩
      · -- parseVal
        intro k s v r h
        rw [hfk]
        cases s with
        | nil => rw [parseVal_nil] at h; exact Option.noConfusion h
        | cons c cs =>
          rw [List.cons_append]
          by_cases h1 : c = lbraceC
          · -- object
            cases hsw : skipWs cs with
            | nil =>
                simp only [parseVal, if_pos h1, hsw] at h
                exact Option.noConfusion h
            | cons c' cs' =>
                have hsw' := skipWs_append_cons ['\n'] hsw
                by_cases h2 : c' = rbraceC
                · simp only [parseVal, if_pos h1, hsw, hsw', if_pos h2] at h ⊢
                  simp only [Option.some.injEq, Prod.mk.injEq] at h ⊢
                  exact ⟨h.1, by rw [← h.2]⟩
                · cases hpo : parseObjItems f (c' :: cs') with
                  | none =>
                      simp only [parseVal, if_pos h1, hsw, if_neg h2, hpo] at h
                      exact Option.noConfusion h
                  | some p =>
                      obtain ⟨kvs, r3⟩ := p
                      have hpo' := ihO k (c' :: cs') kvs r3 hpo
                      rw [List.cons_append] at hpo'
                      simp only [parseVal, if_pos h1, hsw, hsw', if_neg h2, hpo, hpo'] at h ⊢
                      simp only [Option.some.injEq, Prod.mk.injEq] at h ⊢
                      exact ⟨h.1, by rw [← h.2]⟩
          · by_cases h2 : c = '['
            · -- array
              cases hsw : skipWs cs with
              | nil =>
                  simp only [parseVal, if_neg h1, if_pos h2, hsw] at h
                  exact Option.noConfusion h
              | cons c' cs' =>
                  have hsw' := skipWs_append_cons ['\n'] hsw
                  by_cases h3 : c' = ']'
                  · simp only [parseVal, if_neg h1, if_pos h2, hsw, hsw', if_pos h3] at h ⊢
                    simp only [Option.some.injEq, Prod.mk.injEq] at h ⊢
                    exact ⟨h.1, by rw [← h.2]⟩
                  · cases hpa : parseArrItems f (c' :: cs') with
                    | none =>
                        simp only [parseVal, if_neg h1, if_pos h2, hsw, if_neg h3, hpa] at h
                        exact Option.noConfusion h
                    | some p =>
                        obtain ⟨xs, r3⟩ := p
                        have hpa' := ihA k (c' :: cs') xs r3 hpa
                        rw [List.cons_append] at hpa'
                        simp only [parseVal, if_neg h1, if_pos h2, hsw, hsw', if_neg h3,
                          hpa, hpa'] at h ⊢
                        simp only [Option.some.injEq, Prod.mk.injEq] at h ⊢
                        exact ⟨h.1, by rw [← h.2]⟩
            · by_cases h3 : c = '"'
              · -- string
                cases hsc : scanStr cs with
                | none =>
                    simp only [parseVal, if_neg h1, if_neg h2, if_pos h3, hsc] at h
                    exact Option.noConfusion h
                | some p =>
                    obtain ⟨o, rr⟩ := p
                    have hsc' := scanStr_append ['\n'] cs o rr hsc
                    simp only [parseVal, if_neg h1, if_neg h2, if_pos h3, hsc, hsc'] at h ⊢
                    simp only [Option.some.injEq, Prod.mk.injEq] at h ⊢
                    exact ⟨h.1, by rw [← h.2]⟩
              · by_cases h4 : c = 't'
                · simp only [parseVal, if_neg h1, if_neg h2, if_neg h3, if_pos h4] at h ⊢
                  split at h
                  · simp only [List.cons_append, Option.some.injEq, Prod.mk.injEq] at h ⊢
                    exact ⟨h.1, by rw [← h.2]⟩
                  · exact Option.noConfusion h
                · by_cases h5 : c = 'f'
                  · simp only [parseVal, if_neg h1, if_neg h2, if_neg h3, if_neg h4,
                      if_pos h5] at h ⊢
                    split at h
                    · simp only [List.cons_append, Option.some.injEq, Prod.mk.injEq] at h ⊢
                      exact ⟨h.1, by rw [← h.2]⟩
                    · exact Option.noConfusion h
                  · by_cases h6 : c = 'n'
                    · simp only [parseVal, if_neg h1, if_neg h2, if_neg h3, if_neg h4,
                        if_neg h5, if_pos h6] at h ⊢
                      split at h
                      · simp only [List.cons_append, Option.some.injEq, Prod.mk.injEq] at h ⊢
                        exact ⟨h.1, by rw [← h.2]⟩
                      · exact Option.noConfusion h
                    · simp only [parseVal, if_neg h1, if_neg h2, if_neg h3, if_neg h4,
                        if_neg h5, if_neg h6] at h ⊢
                      have := @parseNumber_append_nl (c :: cs) _ _ h
                      rw [List.cons_append] at this
                      exact this
      · -- parseArrItems
        intro k s vs r h
        rw [hfk]
        cases hsw : skipWs s with
        | nil =>
            simp only [parseArrItems, hsw, parseVal_nil] at h
            exact Option.noConfusion h
        | cons c0 cs0 =>
            have hsw' := skipWs_append_cons ['\n'] hsw
            cases hpv : parseVal f (c0 :: cs0) with
            | none =>
                simp only [parseArrItems, hsw, hpv] at h
                exact Option.noConfusion h
            | some p =>
                obtain ⟨v, r1⟩ := p
                have hpv' := ihV k (c0 :: cs0) v r1 hpv
                rw [List.cons_append] at hpv'
                cases hsw2 : skipWs r1 with
                | nil =>
                    simp only [parseArrItems, hsw, hpv, hsw2] at h
                    exact Option.noConfusion h
                | cons c1 r2 =>
                    have hsw2' := skipWs_append_cons ['\n'] hsw2
                    by_cases hcomma : c1 = ','
                    · cases hai : parseArrItems f r2 with
                      | none =>
                          simp only [parseArrItems, hsw, hpv, hsw2, if_pos hcomma, hai] at h
                          exact Option.noConfusion h
                      | some q =>
                          obtain ⟨vs2, r3⟩ := q
                          have hai' := ihA k r2 vs2 r3 hai
                          simp only [parseArrItems, hsw, hpv, hsw2, if_pos hcomma, hai,
                            hsw', hpv', hsw2', hai'] at h ⊢
                          simp only [Option.some.injEq, Prod.mk.injEq] at h ⊢
                          exact ⟨h.1, by rw [← h.2]⟩
                    · by_cases hbr : c1 = ']'
                      · simp only [parseArrItems, hsw, hpv, hsw2, if_neg hcomma, if_pos hbr,
                          hsw', hpv', hsw2'] at h ⊢
                        simp only [Option.some.injEq, Prod.mk.injEq] at h ⊢
                        exact ⟨h.1, by rw [← h.2]⟩
                      · simp only [parseArrItems, hsw, hpv, hsw2, if_neg hcomma,
                          if_neg hbr] at h
                        exact Option.noConfusion h
      · -- parseObjItems
        intro k s kvs r h
        rw [hfk]
        cases hsw : skipWs s with
        | nil =>
            simp only [parseObjItems, hsw] at h
            exact Option.noConfusion h
        | cons c0 cs0 =>
            have hsw' := skipWs_append_cons ['\n'] hsw
            by_cases hq : c0 = '"'
            · cases hsc : scanStr cs0 with
              | none =>
                  simp only [parseObjItems, hsw, if_pos hq, hsc] at h
                  exact Option.noConfusion h
              | some p =>
                  obtain ⟨kk, r1⟩ := p
                  have hsc' := scanStr_append ['\n'] cs0 kk r1 hsc
                  cases hsw2 : skipWs r1 with
                  | nil =>
                      simp only [parseObjItems, hsw, if_pos hq, hsc, hsw2] at h
                      exact Option.noConfusion h
                  | cons c2 r2 =>
                      have hsw2' := skipWs_append_cons ['\n'] hsw2
                      by_cases hcolon : c2 = ':'
                      · cases hsw3 : skipWs r2 with
                        | nil =>
                            simp only [parseObjItems, hsw, if_pos hq, hsc, hsw2,
                              if_pos hcolon, hsw3, parseVal_nil] at h
                            exact Option.noConfusion h
                        | cons c25 cs25 =>
                            have hsw3' := skipWs_append_cons ['\n'] hsw3
                            cases hpv : parseVal f (c25 :: cs25) with
                            | none =>
                                simp only [parseObjItems, hsw, if_pos hq, hsc, hsw2,
                                  if_pos hcolon, hsw3, hpv] at h
                                exact Option.noConfusion h
                            | some pv =>
                                obtain ⟨v, r3⟩ := pv
                                have hpv' := ihV k (c25 :: cs25) v r3 hpv
                                rw [List.cons_append] at hpv'
                                cases hsw4 : skipWs r3 with
                                | nil =>
                                    simp only [parseObjItems, hsw, if_pos hq, hsc, hsw2,
                                      if_pos hcolon, hsw3, hpv, hsw4] at h
                                    exact Option.noConfusion h
                                | cons c3 r4 =>
                                    have hsw4' := skipWs_append_cons ['\n'] hsw4
                                    by_cases hcomma : c3 = ','
                                    · cases hpo : parseObjItems f r4 with
                                      | none =>
                                          simp only [parseObjItems, hsw, if_pos hq, hsc,
                                            hsw2, if_pos hcolon, hsw3, hpv, hsw4,
                                            if_pos hcomma, hpo] at h
                                          exact Option.noConfusion h
                                      | some po =>
                                          obtain ⟨kvs2, r5⟩ := po
                                          have hpo' := ihO k r4 kvs2 r5 hpo
                                          simp only [parseObjItems, hsw, if_pos hq, hsc,
                                            hsw2, if_pos hcolon, hsw3, hpv, hsw4,
                                            if_pos hcomma, hpo, hsw', hsc', hsw2', hsw3',
                                            hpv', hsw4', hpo'] at h ⊢
                                          simp only [Option.some.injEq, Prod.mk.injEq]
                                            at h ⊢
                                          exact ⟨h.1, by rw [← h.2]⟩
                                    · by_cases hbr : c3 = rbraceC
                                      · simp only [parseObjItems, hsw, if_pos hq, hsc,
                                          hsw2, if_pos hcolon, hsw3, hpv, hsw4,
                                          if_neg hcomma, if_pos hbr, hsw', hsc', hsw2',
                                          hsw3', hpv', hsw4'] at h ⊢
                                        simp only [Option.some.injEq, Prod.mk.injEq] at h ⊢
                                        exact ⟨h.1, by rw [← h.2]⟩
                                      · simp only [parseObjItems, hsw, if_pos hq, hsc,
                                          hsw2, if_pos hcolon, hsw3, hpv, hsw4,
                                          if_neg hcomma, if_neg hbr] at h
                                        exact Option.noConfusion h
                      · simp only [parseObjItems, hsw, if_pos hq, hsc, hsw2,
                          if_neg hcolon] at h
                        exact Option.noConfusion h
            · simp only [parseObjItems, hsw, if_neg hq] at h
              exact Option.noConfusion h

theorem json_loads_some_inv {s : Str} {d : Json} (h : json_loads s = some d) :
    ∃ r, parseVal (s.length + 1) (skipWs s) = some (d, r) ∧ r.all isJsonWs = true := by
  cases hp : parseVal (s.length + 1) (skipWs s) with
  | none =>
      simp only [json_loads, hp] at h
      exact Option.noConfusion h
  | some p =>
      obtain ⟨v, r⟩ := p
      simp only [json_loads, hp] at h
      by_cases hall : r.all isJsonWs = true
      · rw [if_pos hall] at h
        simp only [Option.some.injEq] at h
        exact ⟨r, by rw [h], hall⟩
      · rw [if_neg hall] at h
        exact Option.noConfusion h

theorem json_loads_append_nl {c : Char} {J' : Str} {d : Json}
    (hc : isJsonWs c = false)
    (h : json_loads (c :: J') = some d) :
    json_loads ((c :: J') ++ ['\n']) = some d := by
  obtain ⟨r, hp, hall⟩ := json_loads_some_inv h
  have hskip : skipWs (c :: J') = c :: J' := dropWhile_cons_self _ hc
  rw [hskip] at hp
  have hp' := (parse_append_all ((c :: J').length + 1)).1 1 (c :: J') d r hp
  unfold json_loads
  have hskip2 : skipWs ((c :: J') ++ ['\n']) = c :: (J' ++ ['\n']) :=
    skipWs_append_cons _ hskip
  have hlen : ((c :: J') ++ ['\n']).length + 1 = (c :: J').length + 1 + 1 := by simp
  rw [hskip2, hlen]
  rw [List.cons_append] at hp'
  have hall' : (J' ++ ['\n']).all isJsonWs = (r ++ ['\n']).all isJsonWs → True := fun _ => trivial
  simp only [hp']
  have hallr : (r ++ ['\n']).all isJsonWs = true := by
    rw [List.all_append, hall]
    decide
  rw [if_pos hallr]

theorem dropWhile_fence3 (X : Str) :
    List.dropWhile (· = fenceChar) (fenceChar :: fenceChar :: fenceChar :: X)
      = List.dropWhile (· = fenceChar) X := by
  simp [List.dropWhile_cons]

theorem pyStrip_eq_self_of {W : Str} (h1 : W.dropWhile isPyWs = W)
    (h2 : W.reverse.dropWhile isPyWs = W.reverse) : pyStrip W = W := by
  unfold pyStrip dropWhileRight
  rw [h1, h2, List.reverse_reverse]

theorem stripFences_obj (mid : Str) :
    stripFences (lbraceC :: (mid ++ [rbraceC])) = lbraceC :: (mid ++ [rbraceC]) := by
  unfold stripFences
  have hs : pyStrip (lbraceC :: (mid ++ [rbraceC])) = lbraceC :: (mid ++ [rbraceC]) := by
    refine pyStrip_eq_self_of (dropWhile_cons_self _ (by decide)) ?_
    have hrev : (lbraceC :: (mid ++ [rbraceC])).reverse
        = rbraceC :: (mid.reverse ++ [lbraceC]) := by simp
    rw [hrev, dropWhile_cons_self _ (by decide)]
  rw [hs]
  have htake : (lbraceC :: (mid ++ [rbraceC])).take 3
      ≠ [fenceChar, fenceChar, fenceChar] := by
    intro heq
    have hhd : some lbraceC = some fenceChar := by
      have := congrArg List.head? heq
      simpa using this
    simp at hhd
    exact absurd hhd (by decide)
  rw [if_neg htake]

theorem stripFences_wrap (tag J : Str)
    (htag : ∀ c ∈ tag, c ≠ fenceChar ∧ c ≠ '\n') :
    stripFences (fenceChar :: fenceChar :: fenceChar ::
        (tag ++ '\n' :: (J ++ '\n' :: [fenceChar, fenceChar, fenceChar])))
      = J ++ ['\n'] := by
  unfold stripFences
  have hrev : (fenceChar :: fenceChar :: fenceChar ::
      (tag ++ '\n' :: (J ++ '\n' :: [fenceChar, fenceChar, fenceChar]))).reverse
      = fenceChar :: fenceChar :: fenceChar ::
        ('\n' :: (J.reverse ++ '\n' :: (tag.reverse ++
          [fenceChar, fenceChar, fenceChar]))) := by
    simp
  have hs : pyStrip (fenceChar :: fenceChar :: fenceChar ::
      (tag ++ '\n' :: (J ++ '\n' :: [fenceChar, fenceChar, fenceChar])))
      = fenceChar :: fenceChar :: fenceChar ::
        (tag ++ '\n' :: (J ++ '\n' :: [fenceChar, fenceChar, fenceChar])) := by
    refine pyStrip_eq_self_of (dropWhile_cons_self _ (by decide)) ?_
    rw [hrev, dropWhile_cons_self _ (by decide)]
  rw [hs]
  have htake : (fenceChar :: fenceChar :: fenceChar ::
      (tag ++ '\n' :: (J ++ '\n' :: [fenceChar, fenceChar, fenceChar]))).take 3
      = [fenceChar, fenceChar, fenceChar] := rfl
  rw [if_pos htake]
  have hstripchar : pyStripChar fenceChar (fenceChar :: fenceChar :: fenceChar ::
      (tag ++ '\n' :: (J ++ '\n' :: [fenceChar, fenceChar, fenceChar])))
      = tag ++ '\n' :: (J ++ ['\n']) := by
    unfold pyStripChar dropWhileRight
    have hl : (fenceChar :: fenceChar :: fenceChar ::
        (tag ++ '\n' :: (J ++ '\n' :: [fenceChar, fenceChar, fenceChar]))).dropWhile
          (· = fenceChar)
        = tag ++ '\n' :: (J ++ '\n' :: [fenceChar, fenceChar, fenceChar]) := by
      rw [dropWhile_fence3]
      rw [dropWhile_append_stop _ _ (by decide)]
      rw [dropWhile_eq_self_of_all_neg
        (fun c hc => by simp [decide_eq_false_iff_not]; exact (htag c hc).1)]
    rw [hl]
    have hrev2 : (tag ++ '\n' :: (J ++ '\n' ::
        [fenceChar, fenceChar, fenceChar])).reverse
        = fenceChar :: fenceChar :: fenceChar ::
          ('\n' :: (J.reverse ++ '\n' :: tag.reverse)) := by simp
    rw [hrev2, dropWhile_fence3]
    rw [dropWhile_cons_self _ (by decide)]
    simp
  rw [hstripchar]
  have hcontains : (tag ++ '\n' :: (J ++ ['\n'])).contains '\n' = true := by
    simp [List.contains]
  rw [if_pos hcontains]
  unfold afterFirstNl
  rw [dropWhile_append_stop _ _ (by simp)]
  rw [dropWhile_eq_nil_of_all_pos
    (fun c hc => by simp [decide_eq_true_iff]; exact (htag c hc).2)]
  rfl


/-- **C6** — Wrapping a valid JSON object text in a fenced code block
(three backticks, a one-line language tag free of backticks and
newlines, the text, a closing fence) parses to exactly the same value
after the source's fence-stripping step as the unwrapped text, which
the stripping step leaves untouched; hence the AI path builds the same
room from both responses. -/
theorem fenced_json_parses_identically (tag mid : Str) (d : Json)
    (htag : ∀ c ∈ tag, c ≠ fenceChar ∧ c ≠ '\n')
    (hJ : json_loads (lbraceC :: (mid ++ [rbraceC])) = some d) :
    json_loads (stripFences (fenceChar :: fenceChar :: fenceChar ::
        (tag ++ '\n' :: ((lbraceC :: (mid ++ [rbraceC])) ++ '\n' ::
          [fenceChar, fenceChar, fenceChar])))) = some d
    ∧ stripFences (lbraceC :: (mid ++ [rbraceC])) = lbraceC :: (mid ++ [rbraceC])
    ∧ json_loads (stripFences (lbraceC :: (mid ++ [rbraceC]))) = some d
    ∧ ∀ req, aiAttempt (.ok (fenceChar :: fenceChar :: fenceChar ::
        (tag ++ '\n' :: ((lbraceC :: (mid ++ [rbraceC])) ++ '\n' ::
          [fenceChar, fenceChar, fenceChar])))) req
        = aiAttempt (.ok (lbraceC :: (mid ++ [rbraceC]))) req := by
  have h1 := stripFences_wrap tag (lbraceC :: (mid ++ [rbraceC])) htag
  have h2 : json_loads ((lbraceC :: (mid ++ [rbraceC])) ++ ['\n']) = some d :=
    json_loads_append_nl (by decide) hJ
  have h3 := stripFences_obj mid
  refine ⟨by rw [h1]; exact h2, h3, by rw [h3]; exact hJ, ?_⟩
  intro req
  have hw : json_loads (stripFences (fenceChar :: fenceChar :: fenceChar ::
      (tag ++ '\n' :: ((lbraceC :: (mid ++ [rbraceC])) ++ '\n' ::
        [fenceChar, fenceChar, fenceChar])))) = some d := by rw [h1]; exact h2
  have hu : json_loads (stripFences (lbraceC :: (mid ++ [rbraceC]))) = some d := by
    rw [h3]; exact hJ
  simp only [aiAttempt, hw, hu]


/-- **C6** witness: the concrete one-enemy room JSON wrapped in a
fenced block with language tag "json" strips and parses identically to
the unwrapped text, and the AI path treats both responses the same. -/
theorem fenced_json_parses_identically_witness :
    json_loads (stripFences (fenceChar :: fenceChar :: fenceChar ::
        ("json".toList ++ '\n' :: ((lbraceC :: ("\"enemies\": [\x7b\"name\": \"A\", \"health\": 1, \"attack\": 1, \"defense\": 1\x7d]".toList ++ [rbraceC])) ++ '\n' ::
          [fenceChar, fenceChar, fenceChar]))))
        = some (Json.obj [("enemies".toList, Json.arr [Json.obj
            [("name".toList, Json.str "A".toList),
             ("health".toList, Json.intNum 1),
             ("attack".toList, Json.intNum 1),
             ("defense".toList, Json.intNum 1)]])])
    ∧ stripFences (lbraceC :: ("\"enemies\": [\x7b\"name\": \"A\", \"health\": 1, \"attack\": 1, \"defense\": 1\x7d]".toList ++ [rbraceC]))
        = lbraceC :: ("\"enemies\": [\x7b\"name\": \"A\", \"health\": 1, \"attack\": 1, \"defense\": 1\x7d]".toList ++ [rbraceC])
    ∧ json_loads (stripFences (lbraceC :: ("\"enemies\": [\x7b\"name\": \"A\", \"health\": 1, \"attack\": 1, \"defense\": 1\x7d]".toList ++ [rbraceC])))
        = some (Json.obj [("enemies".toList, Json.arr [Json.obj
            [("name".toList, Json.str "A".toList),
             ("health".toList, Json.intNum 1),
             ("attack".toList, Json.intNum 1),
             ("defense".toList, Json.intNum 1)]])])
    ∧ aiAttempt (.ok (fenceChar :: fenceChar :: fenceChar ::
        ("json".toList ++ '\n' :: ((lbraceC :: ("\"enemies\": [\x7b\"name\": \"A\", \"health\": 1, \"attack\": 1, \"defense\": 1\x7d]".toList ++ [rbraceC])) ++ '\n' ::
          [fenceChar, fenceChar, fenceChar])))) ⟨1, 0, "standard".toList⟩
        = aiAttempt (.ok (lbraceC :: ("\"enemies\": [\x7b\"name\": \"A\", \"health\": 1, \"attack\": 1, \"defense\": 1\x7d]".toList ++ [rbraceC]))) ⟨1, 0, "standard".toList⟩ :=
  ⟨(fenced_json_parses_identically "json".toList
      "\"enemies\": [\x7b\"name\": \"A\", \"health\": 1, \"attack\": 1, \"defense\": 1\x7d]".toList
      (Json.obj [("enemies".toList, Json.arr [Json.obj
        [("name".toList, Json.str "A".toList),
         ("health".toList, Json.intNum 1),
         ("attack".toList, Json.intNum 1),
         ("defense".toList, Json.intNum 1)]])]) (by decide) (by rfl)).1,
   (fenced_json_parses_identically "json".toList
      "\"enemies\": [\x7b\"name\": \"A\", \"health\": 1, \"attack\": 1, \"defense\": 1\x7d]".toList
      (Json.obj [("enemies".toList, Json.arr [Json.obj
        [("name".toList, Json.str "A".toList),
         ("health".toList, Json.intNum 1),
         ("attack".toList, Json.intNum 1),
         ("defense".toList, Json.intNum 1)]])]) (by decide) (by rfl)).2.1,
   (fenced_json_parses_identically "json".toList
      "\"enemies\": [\x7b\"name\": \"A\", \"health\": 1, \"attack\": 1, \"defense\": 1\x7d]".toList
      (Json.obj [("enemies".toList, Json.arr [Json.obj
        [("name".toList, Json.str "A".toList),
         ("health".toList, Json.intNum 1),
         ("attack".toList, Json.intNum 1),
         ("defense".toList, Json.intNum 1)]])]) (by decide) (by rfl)).2.2.1,
   (fenced_json_parses_identically "json".toList
      "\"enemies\": [\x7b\"name\": \"A\", \"health\": 1, \"attack\": 1, \"defense\": 1\x7d]".toList
      (Json.obj [("enemies".toList, Json.arr [Json.obj
        [("name".toList, Json.str "A".toList),
         ("health".toList, Json.intNum 1),
         ("attack".toList, Json.intNum 1),
         ("defense".toList, Json.intNum 1)]])]) (by decide) (by rfl)).2.2.2
      ⟨1, 0, "standard".toList⟩⟩

/-- The loot table of every fallback enemy. -/
theorem proc_enemy_loot (req : DungeonRequest) (rng : Nat → Nat) :
    ∀ e ∈ (generate_procedural_dungeon req rng).enemies, e.loot_drop = fixedLoot := by
  intro e he
  simp only [generate_procedural_dungeon, List.mem_map] at he
  obtain ⟨i, -, rfl⟩ := he
  rfl

/-- **C3** — With the availability flag false, `generate_dungeon_with_ai`
returns exactly the procedural result: the model oracle is never
consulted (any two oracles give the same result), and every enemy of
that result carries the fixed fallback loot table
`[health_potion, gold, weapon_shard]`. -/
theorem vertex_disabled_uses_fallback (req : DungeonRequest) (rng : Nat → Nat)
    (model model' : Str → Except Unit Str) :
    generate_dungeon_with_ai false model req rng = generate_procedural_dungeon req rng
    ∧ generate_dungeon_with_ai false model req rng
        = generate_dungeon_with_ai false model' req rng
    ∧ (generate_dungeon_with_ai false model req rng).enemies.all
        (fun e => e.loot_drop == fixedLoot) = true := by
  refine ⟨rfl, rfl, ?_⟩
  simp only [List.all_eq_true, beq_iff_eq]
  intro e he
  exact proc_enemy_loot req rng e he

/-- **C4** — For `player_level ≥ 0` the fallback enemy count is exactly
`min 4 (1 + player_level // 3)` (Python floor division), hence between 1
and 4. -/
theorem proc_enemy_count (req : DungeonRequest) (rng : Nat → Nat)
    (h : 0 ≤ req.player_level) :
    ((generate_procedural_dungeon req rng).enemies.length : Int)
        = min 4 (1 + req.player_level.fdiv 3)
    ∧ 1 ≤ (generate_procedural_dungeon req rng).enemies.length
    ∧ (generate_procedural_dungeon req rng).enemies.length ≤ 4 := by
  have hlen : (generate_procedural_dungeon req rng).enemies.length
      = (min 4 (1 + req.player_level.fdiv 3)).toNat := by
    simp [generate_procedural_dungeon]
  rw [Int.fdiv_eq_ediv _ (by norm_num)] at hlen ⊢
  constructor
  · rw [hlen, Int.toNat_of_nonneg (by omega)]
  · constructor <;> rw [hlen] <;> omega

/-- **C4** witness: at level 11 the count is `min 4 (1 + 11 // 3) = 4`;
the remaining sample levels of the claim are checked alongside. -/
theorem proc_enemy_count_witness :
    (0 ≤ (11 : Int)
      ∧ (((generate_procedural_dungeon ⟨11, 0, []⟩ (fun _ => 0)).enemies.length : Int)
            = min 4 (1 + (11 : Int).fdiv 3)
          ∧ 1 ≤ (generate_procedural_dungeon ⟨11, 0, []⟩ (fun _ => 0)).enemies.length
          ∧ (generate_procedural_dungeon ⟨11, 0, []⟩ (fun _ => 0)).enemies.length ≤ 4))
    ∧ (generate_procedural_dungeon ⟨0, 0, []⟩ (fun _ => 0)).enemies.length = 1
    ∧ (generate_procedural_dungeon ⟨1, 0, []⟩ (fun _ => 0)).enemies.length = 1
    ∧ (generate_procedural_dungeon ⟨2, 0, []⟩ (fun _ => 0)).enemies.length = 1
    ∧ (generate_procedural_dungeon ⟨3, 0, []⟩ (fun _ => 0)).enemies.length = 2
    ∧ (generate_procedural_dungeon ⟨5, 0, []⟩ (fun _ => 0)).enemies.length = 2
    ∧ (generate_procedural_dungeon ⟨11, 0, []⟩ (fun _ => 0)).enemies.length = 4
    ∧ (generate_procedural_dungeon ⟨20, 0, []⟩ (fun _ => 0)).enemies.length = 4 := by
  refine ⟨⟨by decide, proc_enemy_count ⟨11, 0, []⟩ (fun _ => 0) (by decide)⟩, ?_⟩
  refine ⟨?_, ?_, ?_, ?_, ?_, ?_, ?_⟩ <;> simp [generate_procedural_dungeon]

/-- **C5** — The fallback `difficulty_modifier` is exactly
`player_level * 0.1 + skill_score * 0.5` (floats idealised as exact
rationals), and this is the same value the AI path computes as its
`adaptive_difficulty`; at level 10 and skill 0.8 it is 1.4 = 7/5. -/
theorem proc_difficulty_formula (req : DungeonRequest) (rng : Nat → Nat) :
    (generate_procedural_dungeon req rng).difficulty_modifier
        = (req.player_level : ℚ) * (1 / 10) + req.skill_score * (1 / 2)
    ∧ adaptive_difficulty req
        = (generate_procedural_dungeon req rng).difficulty_modifier
    ∧ ∀ dt rng', (generate_procedural_dungeon ⟨10, 4 / 5, dt⟩ rng').difficulty_modifier
        = 7 / 5 := by
  refine ⟨rfl, ?_, ?_⟩
  · simp only [generate_procedural_dungeon, adaptive_difficulty, base_difficulty]
  · intro dt rng'
    simp only [generate_procedural_dungeon]
    norm_num

/-- **C9** — The request model itself enforces no bounds, and for a
negative `player_level` the fallback enemy count
`min 4 (1 + player_level // 3)` is ≤ 0, so the enemies list comes out
empty: the non-empty invariant really does need `player_level ≥ 0`. -/
theorem proc_negative_level_empty (req : DungeonRequest) (rng : Nat → Nat)
    (h : req.player_level < 0) :
    min 4 (1 + req.player_level.fdiv 3) ≤ 0
    ∧ (generate_procedural_dungeon req rng).enemies = [] := by
  rw [Int.fdiv_eq_ediv _ (by norm_num)]
  have hle : min 4 (1 + req.player_level / 3) ≤ 0 := by omega
  refine ⟨hle, ?_⟩
  have hn : (min 4 (1 + req.player_level.fdiv 3)).toNat = 0 := by
    rw [Int.fdiv_eq_ediv _ (by norm_num)]
    omega
  simp [generate_procedural_dungeon, hn]

/-- **C9** witness: at level −1 the enemies list is empty. -/
theorem proc_negative_level_empty_witness :
    (-1 : Int) < 0
    ∧ (min 4 (1 + (-1 : Int).fdiv 3) ≤ 0
        ∧ (generate_procedural_dungeon ⟨-1, 0, []⟩ (fun _ => 0)).enemies = []) := by
  exact ⟨by decide, proc_negative_level_empty ⟨-1, 0, []⟩ (fun _ => 0) (by decide)⟩

/-- **C10** — `dungeon_type` does not influence the fallback output at all
(two requests differing only in it give identical rooms under the same
oracle), and it reaches the AI path only through the rendered prompt:
whenever the two model oracles answer those prompts identically, the
whole generator's outputs coincide as well. -/
theorem dungeon_type_only_in_prompt (lvl : Int) (skill : ℚ) (dt dt' : Str)
    (rng : Nat → Nat) (model model' : Str → Except Unit Str) (flag : Bool) :
    generate_procedural_dungeon ⟨lvl, skill, dt⟩ rng
        = generate_procedural_dungeon ⟨lvl, skill, dt'⟩ rng
    ∧ (model (buildPrompt ⟨lvl, skill, dt⟩) = model' (buildPrompt ⟨lvl, skill, dt'⟩) →
        generate_dungeon_with_ai flag model ⟨lvl, skill, dt⟩ rng
          = generate_dungeon_with_ai flag model' ⟨lvl, skill, dt'⟩ rng) := by
  constructor
  · rfl
  · intro hm
    cases flag with
    | false => rfl
    | true =>
        have hA : ∀ resp, aiAttempt resp ⟨lvl, skill, dt⟩ = aiAttempt resp ⟨lvl, skill, dt'⟩ := by
          intro resp
          cases resp with
          | error e => rfl
          | ok raw =>
              simp only [aiAttempt]
              cases json_loads (stripFences raw) with
              | none => rfl
              | some data =>
                  cases data <;> rfl
        have hP : generate_procedural_dungeon ⟨lvl, skill, dt⟩ rng
            = generate_procedural_dungeon ⟨lvl, skill, dt'⟩ rng := rfl
        simp only [generate_dungeon_with_ai, hm, hA, hP]

/-- **C10** witness: two requests differing only in `dungeon_type`, with
oracles answering their prompts identically, give the same fallback room
and the same AI-path room. -/
theorem dungeon_type_only_in_prompt_witness :
    generate_procedural_dungeon ⟨3, 0, "boss".toList⟩ (fun _ => 0)
        = generate_procedural_dungeon ⟨3, 0, "treasure".toList⟩ (fun _ => 0)
    ∧ generate_dungeon_with_ai true (fun _ => .error ()) ⟨3, 0, "boss".toList⟩ (fun _ => 0)
        = generate_dungeon_with_ai true (fun _ => .error ())
            ⟨3, 0, "treasure".toList⟩ (fun _ => 0) :=
  ⟨(dungeon_type_only_in_prompt 3 0 "boss".toList "treasure".toList
      (fun _ => 0) (fun _ => .error ()) (fun _ => .error ()) true).1,
   (dungeon_type_only_in_prompt 3 0 "boss".toList "treasure".toList
      (fun _ => 0) (fun _ => .error ()) (fun _ => .error ()) true).2 rfl⟩

/-- The fallback enemy list is non-empty whenever `player_level ≥ 0`. -/
theorem proc_enemies_ne_nil (req : DungeonRequest) (rng : Nat → Nat)
    (h : 0 ≤ req.player_level) :
    (generate_procedural_dungeon req rng).enemies ≠ [] := by
  have := (proc_enemy_count req rng h).2.1
  intro hnil
  rw [hnil] at this
  simp at this

/-- The fallback `loot_chests` is `randint(1, 3)`, hence in `[1, 3]`. -/
theorem proc_loot_range (req : DungeonRequest) (rng : Nat → Nat) :
    1 ≤ (generate_procedural_dungeon req rng).loot_chests
    ∧ (generate_procedural_dungeon req rng).loot_chests ≤ 3 := by
  simp only [generate_procedural_dungeon, pyRandint]
  norm_num
  omega

/-- Inversion of a successful AI attempt: the response was `.ok`, the
(fence-stripped) text parsed to a JSON object, the coerced enemy list
was non-empty, all four remaining coercions succeeded, and the room is
built from exactly those values. -/
theorem aiAttempt_some_inv (resp : Except Unit Str) (req : DungeonRequest)
    (room : DungeonRoom) (h : aiAttempt resp req = some room) :
    ∃ raw kvs es lay lc dm de, resp = .ok raw
      ∧ json_loads (stripFences raw) = some (.obj kvs)
      ∧ buildEnemies (getKV kvs "enemies".toList (.arr [])) = some es
      ∧ es ≠ []
      ∧ asStr (getKV kvs "layout".toList (.str "corridor".toList)) = some lay
      ∧ pyInt (getKV kvs "loot_chests".toList (.intNum 1)) = some lc
      ∧ pyFloat (getKV kvs "difficulty_modifier".toList
          (.floatNum (adaptive_difficulty req))) = some dm
      ∧ asStr (getKV kvs "description".toList (.str aiDefaultDescription)) = some de
      ∧ room = ⟨lay, es, lc, dm, de⟩ := by
  cases resp with
  | error e => simp [aiAttempt] at h
  | ok raw =>
    simp only [aiAttempt] at h
    split at h <;> try exact Option.noConfusion h
    next kvs hj =>
      split at h <;> try exact Option.noConfusion h
      next es hne hbe =>
        split at h
        next lay lc dm de hlay hlc hdm hde =>
          simp only [Option.some.injEq] at h
          exact ⟨raw, kvs, es, lay, lc, dm, de, rfl, hj, hbe,
            fun hn => hne hn, hlay, hlc, hdm, hde, h.symm⟩
        next => exact Option.noConfusion h

/-- **C2** — Every internal failure of the AI path is replaced by the
procedural fallback: any failing attempt, a raised remote call, and a
response whose (fence-stripped) text is not JSON all yield exactly
`generate_procedural_dungeon`; with the flag off the fallback is
likewise returned directly.  (The embedding is a total function into
`DungeonRoom`, mirroring the `try/except` that never re-raises.) -/
theorem ai_failures_fall_back (req : DungeonRequest) (rng : Nat → Nat)
    (model : Str → Except Unit Str) :
    (aiAttempt (model (buildPrompt req)) req = none →
      generate_dungeon_with_ai true model req rng = generate_procedural_dungeon req rng)
    ∧ (∀ e, model (buildPrompt req) = .error e →
      generate_dungeon_with_ai true model req rng = generate_procedural_dungeon req rng)
    ∧ (∀ raw, model (buildPrompt req) = .ok raw →
        json_loads (stripFences raw) = none →
      generate_dungeon_with_ai true model req rng = generate_procedural_dungeon req rng)
    ∧ generate_dungeon_with_ai false model req rng = generate_procedural_dungeon req rng := by
  refine ⟨?_, ?_, ?_, rfl⟩
  · intro h
    simp [generate_dungeon_with_ai, h]
  · intro e he
    have : aiAttempt (model (buildPrompt req)) req = none := by
      rw [he]; rfl
    simp [generate_dungeon_with_ai, this]
  · intro raw hraw hparse
    have : aiAttempt (model (buildPrompt req)) req = none := by
      rw [hraw]; simp only [aiAttempt, hparse]
    simp [generate_dungeon_with_ai, this]

/-- **C2** witness: a model that raises, and one answering the non-JSON
text "not json", both produce exactly the fallback room; with the flag
off the fallback is returned as well. -/
theorem ai_failures_fall_back_witness :
    (generate_dungeon_with_ai true (fun _ => .error ()) ⟨2, 0, "standard".toList⟩ (fun _ => 0)
        = generate_procedural_dungeon ⟨2, 0, "standard".toList⟩ (fun _ => 0))
    ∧ (generate_dungeon_with_ai true (fun _ => .ok "not json".toList)
          ⟨2, 0, "standard".toList⟩ (fun _ => 0)
        = generate_procedural_dungeon ⟨2, 0, "standard".toList⟩ (fun _ => 0))
    ∧ generate_dungeon_with_ai false (fun _ => .error ()) ⟨2, 0, "standard".toList⟩ (fun _ => 0)
        = generate_procedural_dungeon ⟨2, 0, "standard".toList⟩ (fun _ => 0) :=
  ⟨(ai_failures_fall_back ⟨2, 0, "standard".toList⟩ (fun _ => 0)
      (fun _ => .error ())).2.1 () rfl,
   (ai_failures_fall_back ⟨2, 0, "standard".toList⟩ (fun _ => 0)
      (fun _ => .ok "not json".toList)).2.2.1 "not json".toList rfl (by rfl),
   (ai_failures_fall_back ⟨2, 0, "standard".toList⟩ (fun _ => 0)
      (fun _ => .error ())).2.2.2⟩

/-- **C7** — A response that parses as JSON but whose coerced enemies list
is empty (an `enemies: []` array or an absent `enemies` key both coerce
to `some []`) makes the attempt fail, so the generator returns the
procedural room — which has non-empty enemies for a valid level. -/
theorem empty_enemies_fall_back (req : DungeonRequest) (rng : Nat → Nat)
    (raw : Str) (kvs : List (Str × Json))
    (hparse : json_loads (stripFences raw) = some (.obj kvs))
    (hempty : buildEnemies (getKV kvs "enemies".toList (.arr [])) = some []) :
    aiAttempt (.ok raw) req = none
    ∧ ∀ model, model (buildPrompt req) = .ok raw →
        generate_dungeon_with_ai true model req rng = generate_procedural_dungeon req rng
        ∧ (0 ≤ req.player_level →
            (generate_dungeon_with_ai true model req rng).enemies ≠ []) := by
  have hA : aiAttempt (.ok raw) req = none := by
    simp only [aiAttempt, hparse, hempty]
  refine ⟨hA, ?_⟩
  intro model hm
  have hres : generate_dungeon_with_ai true model req rng
      = generate_procedural_dungeon req rng := by
    have : aiAttempt (model (buildPrompt req)) req = none := by rw [hm]; exact hA
    simp [generate_dungeon_with_ai, this]
  exact ⟨hres, fun hlvl => hres ▸ proc_enemies_ne_nil req rng hlvl⟩

/-- **C8** — When the model's JSON object omits `layout`, `loot_chests`,
`difficulty_modifier` and `description` but yields at least one
well-formed enemy, the attempt succeeds with the documented defaults:
layout "corridor", one loot chest, the computed adaptive difficulty,
and the fixed AI-attribution description; and inside `buildEnemy` an
absent `behavior` defaults to "aggressive", an absent `loot_drop` to
the empty list, while health/attack/defense are the `int()` coercions
of the supplied fields. -/
theorem ai_omitted_fields_default (req : DungeonRequest) (raw : Str)
    (kvs : List (Str × Json)) (es : List Enemy)
    (hparse : json_loads (stripFences raw) = some (.obj kvs))
    (hl : lookupKV kvs "layout".toList = none)
    (hc : lookupKV kvs "loot_chests".toList = none)
    (hd : lookupKV kvs "difficulty_modifier".toList = none)
    (hds : lookupKV kvs "description".toList = none)
    (he : buildEnemies (getKV kvs "enemies".toList (.arr [])) = some es)
    (hne : es ≠ []) :
    aiAttempt (.ok raw) req
      = some ⟨"corridor".toList, es, 1, adaptive_difficulty req, aiDefaultDescription⟩
    ∧ (∀ model rng, model (buildPrompt req) = .ok raw →
        generate_dungeon_with_ai true model req rng
          = ⟨"corridor".toList, es, 1, adaptive_difficulty req, aiDefaultDescription⟩)
    ∧ (∀ ekvs en, buildEnemy (.obj ekvs) = some en →
        (lookupKV ekvs "behavior".toList = none → en.behavior = "aggressive".toList)
        ∧ (lookupKV ekvs "loot_drop".toList = none → en.loot_drop = [])
        ∧ (∀ hj, lookupKV ekvs "health".toList = some hj → pyInt hj = some en.health)
        ∧ (∀ aj, lookupKV ekvs "attack".toList = some aj → pyInt aj = some en.attack)
        ∧ (∀ dj, lookupKV ekvs "defense".toList = some dj → pyInt dj = some en.defense)) := by
  have hL : getKV kvs "layout".toList (.str "corridor".toList)
      = .str "corridor".toList := by unfold getKV; rw [hl]; rfl
  have hC : getKV kvs "loot_chests".toList (.intNum 1) = .intNum 1 := by
    unfold getKV; rw [hc]; rfl
  have hD : getKV kvs "difficulty_modifier".toList (.floatNum (adaptive_difficulty req))
      = .floatNum (adaptive_difficulty req) := by unfold getKV; rw [hd]; rfl
  have hDs : getKV kvs "description".toList (.str aiDefaultDescription)
      = .str aiDefaultDescription := by unfold getKV; rw [hds]; rfl
  have hmain : aiAttempt (.ok raw) req
      = some ⟨"corridor".toList, es, 1, adaptive_difficulty req, aiDefaultDescription⟩ := by
    cases es with
    | nil => exact absurd rfl hne
    | cons e0 es' =>
        simp only [aiAttempt, hparse, he, hL, hC, hD, hDs, asStr, pyInt, pyFloat]
  refine ⟨hmain, ?_, ?_⟩
  · intro model rng hm
    simp [generate_dungeon_with_ai, hm, hmain]
  · intro ekvs en hb
    simp only [buildEnemy, Bind.bind, Option.bind_eq_some, Option.some.injEq] at hb
    obtain ⟨nmj, hnmj, nm, hnm, hj0, hhj0, hh, hph, aj0, haj0, ha, hpa,
      dj0, hdj0, hdv, hpd, bv, hbv, lv, hlv, hen⟩ := hb
    subst hen
    refine ⟨?_, ?_, ?_, ?_, ?_⟩
    · intro hbn
      simp only [getKV, hbn, Option.getD, asStr, Option.some.injEq] at hbv
      exact hbv.symm
    · intro hln
      have hget : getKV ekvs "loot_drop".toList (.arr []) = .arr [] := by
        unfold getKV; rw [hln]; rfl
      rw [hget] at hlv
      simp only [pyListStr, List.mapM_nil, Option.pure_def, Option.some.injEq] at hlv
      exact hlv.symm
    · intro hj hhj
      rw [hhj] at hhj0
      cases hhj0
      exact hph
    · intro aj haj
      rw [haj] at haj0
      cases haj0
      exact hpa
    · intro dj hdj
      rw [hdj] at hdj0
      cases hdj0
      exact hpd

/-- **C1** counterexample — a valid request (level 1, skill 0.5) together
with a model response that is well-formed JSON carrying one valid enemy
but `loot_chests: -5`: the returned room has a negative `loot_chests`,
refuting the claimed `loot_chests ≥ 0` invariant (the source applies
`int(...)` with no lower bound). -/
theorem ai_loot_negative_cex :
    0 ≤ (⟨1, 1 / 2, "standard".toList⟩ : DungeonRequest).player_level
    ∧ 0 ≤ (⟨1, 1 / 2, "standard".toList⟩ : DungeonRequest).skill_score
    ∧ (⟨1, 1 / 2, "standard".toList⟩ : DungeonRequest).skill_score ≤ 1
    ∧ (generate_dungeon_with_ai true
        (fun _ => .ok ("\x7b\"enemies\": [\x7b\"name\": \"Slime\", \"health\": 1, \"attack\": 1, \"defense\": 1\x7d], \"loot_chests\": -5\x7d".toList))
        ⟨1, 1 / 2, "standard".toList⟩ (fun _ => 0)).loot_chests = -5
    ∧ ¬ (0 ≤ (generate_dungeon_with_ai true
        (fun _ => .ok ("\x7b\"enemies\": [\x7b\"name\": \"Slime\", \"health\": 1, \"attack\": 1, \"defense\": 1\x7d], \"loot_chests\": -5\x7d".toList))
        ⟨1, 1 / 2, "standard".toList⟩ (fun _ => 0)).loot_chests) := by
  refine ⟨by norm_num, by norm_num, by norm_num, ?_, ?_⟩ <;> decide

/-- **C1** (amended) — For every valid request and every model outcome the
returned room's enemies list is non-empty; and `loot_chests ≥ 0` can
only fail when the accepted model JSON itself supplied the (coerced)
negative `loot_chests` value — in particular it holds on every fallback
path. -/
theorem ai_room_invariant (req : DungeonRequest) (flag : Bool)
    (model : Str → Except Unit Str) (rng : Nat → Nat)
    (hlvl : 0 ≤ req.player_level) (_hs0 : 0 ≤ req.skill_score)
    (_hs1 : req.skill_score ≤ 1) :
    (generate_dungeon_with_ai flag model req rng).enemies ≠ []
    ∧ ((generate_dungeon_with_ai flag model req rng).loot_chests < 0 →
        ∃ raw kvs, model (buildPrompt req) = .ok raw
          ∧ json_loads (stripFences raw) = some (.obj kvs)
          ∧ pyInt (getKV kvs "loot_chests".toList (.intNum 1))
              = some (generate_dungeon_with_ai flag model req rng).loot_chests) := by
  cases flag with
  | false =>
      have hres : generate_dungeon_with_ai false model req rng
          = generate_procedural_dungeon req rng := rfl
      rw [hres]
      refine ⟨proc_enemies_ne_nil req rng hlvl, ?_⟩
      intro hneg
      have := (proc_loot_range req rng).1
      omega
  | true =>
      cases hA : aiAttempt (model (buildPrompt req)) req with
      | none =>
          have hres : generate_dungeon_with_ai true model req rng
              = generate_procedural_dungeon req rng := by
            simp [generate_dungeon_with_ai, hA]
          rw [hres]
          refine ⟨proc_enemies_ne_nil req rng hlvl, ?_⟩
          intro hneg
          have := (proc_loot_range req rng).1
          omega
      | some room =>
          have hres : generate_dungeon_with_ai true model req rng = room := by
            simp [generate_dungeon_with_ai, hA]
          obtain ⟨raw, kvs, es, lay, lc, dm, de, hraw, hj, hbe, hne,
            hlay, hlc, hdm, hde, hroom⟩ := aiAttempt_some_inv _ _ _ hA
          rw [hres, hroom]
          exact ⟨hne, fun _ => ⟨raw, kvs, hraw, hj, hlc⟩⟩

/-- **C1** (amended) witness at a concrete valid request with an
unavailable model. -/
theorem ai_room_invariant_witness :
    (0 ≤ (⟨0, 0, []⟩ : DungeonRequest).player_level
      ∧ 0 ≤ (⟨0, 0, []⟩ : DungeonRequest).skill_score
      ∧ (⟨0, 0, []⟩ : DungeonRequest).skill_score ≤ 1)
    ∧ (generate_dungeon_with_ai false (fun _ => .error ()) ⟨0, 0, []⟩ (fun _ => 0)).enemies
        ≠ [] :=
  ⟨⟨by norm_num, by norm_num, by norm_num⟩,
    (ai_room_invariant ⟨0, 0, []⟩ false (fun _ => .error ()) (fun _ => 0)
      (by norm_num) (by norm_num) (by norm_num)).1⟩


/-- **C7** witness: the concrete response `\x7b"enemies": []\x7d` makes the
attempt fail and the generator return the (non-empty-enemies) fallback
room. -/
theorem empty_enemies_fall_back_witness :
    aiAttempt (.ok "\x7b\"enemies\": []\x7d".toList) ⟨2, 0, "standard".toList⟩ = none
    ∧ generate_dungeon_with_ai true (fun _ => .ok "\x7b\"enemies\": []\x7d".toList)
        ⟨2, 0, "standard".toList⟩ (fun _ => 0)
      = generate_procedural_dungeon ⟨2, 0, "standard".toList⟩ (fun _ => 0)
    ∧ (generate_dungeon_with_ai true (fun _ => .ok "\x7b\"enemies\": []\x7d".toList)
        ⟨2, 0, "standard".toList⟩ (fun _ => 0)).enemies ≠ [] :=
  ⟨(empty_enemies_fall_back ⟨2, 0, "standard".toList⟩ (fun _ => 0)
      "\x7b\"enemies\": []\x7d".toList [("enemies".toList, Json.arr [])]
      (by rfl) (by rfl)).1,
   ((empty_enemies_fall_back ⟨2, 0, "standard".toList⟩ (fun _ => 0)
      "\x7b\"enemies\": []\x7d".toList [("enemies".toList, Json.arr [])]
      (by rfl) (by rfl)).2 (fun _ => .ok "\x7b\"enemies\": []\x7d".toList) rfl).1,
   ((empty_enemies_fall_back ⟨2, 0, "standard".toList⟩ (fun _ => 0)
      "\x7b\"enemies\": []\x7d".toList [("enemies".toList, Json.arr [])]
      (by rfl) (by rfl)).2 (fun _ => .ok "\x7b\"enemies\": []\x7d".toList) rfl).2
      (by norm_num)⟩

/-- **C8** witness: a response whose object carries only one minimal
enemy gets every documented default, and the enemy-level defaults and
integer coercions hold on that enemy. -/
theorem ai_omitted_fields_default_witness :
    aiAttempt (.ok "\x7b\"enemies\": [\x7b\"name\": \"A\", \"health\": 7, \"attack\": 2, \"defense\": 3\x7d]\x7d".toList)
        ⟨2, 0, "standard".toList⟩
      = some ⟨"corridor".toList,
          [⟨"A".toList, 7, 2, 3, "aggressive".toList, []⟩], 1,
          adaptive_difficulty ⟨2, 0, "standard".toList⟩, aiDefaultDescription⟩
    ∧ generate_dungeon_with_ai true
        (fun _ => .ok "\x7b\"enemies\": [\x7b\"name\": \"A\", \"health\": 7, \"attack\": 2, \"defense\": 3\x7d]\x7d".toList)
        ⟨2, 0, "standard".toList⟩ (fun _ => 0)
      = ⟨"corridor".toList,
          [⟨"A".toList, 7, 2, 3, "aggressive".toList, []⟩], 1,
          adaptive_difficulty ⟨2, 0, "standard".toList⟩, aiDefaultDescription⟩
    ∧ (⟨"A".toList, 7, 2, 3, "aggressive".toList, []⟩ : Enemy).behavior
        = "aggressive".toList
    ∧ (⟨"A".toList, 7, 2, 3, "aggressive".toList, []⟩ : Enemy).loot_drop = []
    ∧ pyInt (Json.intNum 7)
        = some (⟨"A".toList, 7, 2, 3, "aggressive".toList, []⟩ : Enemy).health :=
  ⟨(ai_omitted_fields_default ⟨2, 0, "standard".toList⟩
      "\x7b\"enemies\": [\x7b\"name\": \"A\", \"health\": 7, \"attack\": 2, \"defense\": 3\x7d]\x7d".toList
      [("enemies".toList, Json.arr [Json.obj
        [("name".toList, Json.str "A".toList), ("health".toList, Json.intNum 7),
         ("attack".toList, Json.intNum 2), ("defense".toList, Json.intNum 3)]])]
      [⟨"A".toList, 7, 2, 3, "aggressive".toList, []⟩]
      (by rfl) (by rfl) (by rfl) (by rfl) (by rfl) (by rfl) (by decide)).1,
   (ai_omitted_fields_default ⟨2, 0, "standard".toList⟩
      "\x7b\"enemies\": [\x7b\"name\": \"A\", \"health\": 7, \"attack\": 2, \"defense\": 3\x7d]\x7d".toList
      [("enemies".toList, Json.arr [Json.obj
        [("name".toList, Json.str "A".toList), ("health".toList, Json.intNum 7),
         ("attack".toList, Json.intNum 2), ("defense".toList, Json.intNum 3)]])]
      [⟨"A".toList, 7, 2, 3, "aggressive".toList, []⟩]
      (by rfl) (by rfl) (by rfl) (by rfl) (by rfl) (by rfl) (by decide)).2.1
      (fun _ => .ok "\x7b\"enemies\": [\x7b\"name\": \"A\", \"health\": 7, \"attack\": 2, \"defense\": 3\x7d]\x7d".toList)
      (fun _ => 0) rfl,
   ((ai_omitted_fields_default ⟨2, 0, "standard".toList⟩
      "\x7b\"enemies\": [\x7b\"name\": \"A\", \"health\": 7, \"attack\": 2, \"defense\": 3\x7d]\x7d".toList
      [("enemies".toList, Json.arr [Json.obj
        [("name".toList, Json.str "A".toList), ("health".toList, Json.intNum 7),
         ("attack".toList, Json.intNum 2), ("defense".toList, Json.intNum 3)]])]
      [⟨"A".toList, 7, 2, 3, "aggressive".toList, []⟩]
      (by rfl) (by rfl) (by rfl) (by rfl) (by rfl) (by rfl) (by decide)).2.2
      [("name".toList, Json.str "A".toList), ("health".toList, Json.intNum 7),
       ("attack".toList, Json.intNum 2), ("defense".toList, Json.intNum 3)]
      ⟨"A".toList, 7, 2, 3, "aggressive".toList, []⟩ (by rfl)).1 (by rfl),
   ((ai_omitted_fields_default ⟨2, 0, "standard".toList⟩
      "\x7b\"enemies\": [\x7b\"name\": \"A\", \"health\": 7, \"attack\": 2, \"defense\": 3\x7d]\x7d".toList
      [("enemies".toList, Json.arr [Json.obj
        [("name".toList, Json.str "A".toList), ("health".toList, Json.intNum 7),
         ("attack".toList, Json.intNum 2), ("defense".toList, Json.intNum 3)]])]
      [⟨"A".toList, 7, 2, 3, "aggressive".toList, []⟩]
      (by rfl) (by rfl) (by rfl) (by rfl) (by rfl) (by rfl) (by decide)).2.2
      [("name".toList, Json.str "A".toList), ("health".toList, Json.intNum 7),
       ("attack".toList, Json.intNum 2), ("defense".toList, Json.intNum 3)]
      ⟨"A".toList, 7, 2, 3, "aggressive".toList, []⟩ (by rfl)).2.1 (by rfl),
   ((ai_omitted_fields_default ⟨2, 0, "standard".toList⟩
      "\x7b\"enemies\": [\x7b\"name\": \"A\", \"health\": 7, \"attack\": 2, \"defense\": 3\x7d]\x7d".toList
      [("enemies".toList, Json.arr [Json.obj
        [("name".toList, Json.str "A".toList), ("health".toList, Json.intNum 7),
         ("attack".toList, Json.intNum 2), ("defense".toList, Json.intNum 3)]])]
      [⟨"A".toList, 7, 2, 3, "aggressive".toList, []⟩]
      (by rfl) (by rfl) (by rfl) (by rfl) (by rfl) (by rfl) (by decide)).2.2
      [("name".toList, Json.str "A".toList), ("health".toList, Json.intNum 7),
       ("attack".toList, Json.intNum 2), ("defense".toList, Json.intNum 3)]
      ⟨"A".toList, 7, 2, 3, "aggressive".toList, []⟩ (by rfl)).2.2.1
      (Json.intNum 7) (by rfl)⟩

end CloudQuest
